import Mathlib

/-!
Shallow embedding of the batch file-archiving engine in
`src/FileUploader/high_performance_zipper.cpp`.

Paths are modelled as bare filename strings (the engine operates on a flat,
non-recursive directory scan where every source function only uses the
filename component).  Filesystem faults that the C++ code observes as thrown
`fs::filesystem_error` / failing libzip calls are modelled explicitly: a
`none` timestamp or size means the corresponding stat call throws, and a
`TaskEnv` records which libzip / filesystem step of one task's execution
succeeds.
-/

namespace HPZipper

/-- `MimeTypeMapper::mimeTypes`: the static extension → media-type table. -/
def mimeTypes : List (String × String) :=
  [("pdf", "application/pdf"),
   ("docx", "application/vnd.openxmlformats-officedocument.wordprocessingml.document"),
   ("xlsx", "application/vnd.openxmlformats-officedocument.spreadsheetml.sheet"),
   ("pptx", "application/vnd.openxmlformats-officedocument.presentationml.presentation"),
   ("doc", "application/msword"),
   ("xls", "application/vnd.ms-excel"),
   ("ppt", "application/vnd.ms-powerpoint"),
   ("jpg", "image/jpeg"),
   ("jpeg", "image/jpeg"),
   ("png", "image/png"),
   ("gif", "image/gif"),
   ("svg", "image/svg+xml"),
   ("zip", "application/zip"),
   ("txt", "text/plain")]

/-- `MimeTypeMapper::getMimeType`: lowercase the extension, strip one leading
dot, look it up; unknown extensions map to the generic octet-stream type. -/
def getMimeType (extension : String) : String :=
  let lowerExt := extension.toLower
  let lowerExt := if lowerExt.startsWith "." then lowerExt.drop 1 else lowerExt
  match mimeTypes.lookup lowerExt with
  | some t => t
  | none => "application/octet-stream"

/-- `MimeTypeMapper::getFileExtension`: the substring after the last dot,
empty when there is no dot or the dot is the final character. -/
def getFileExtension (filename : String) : String :=
  let cs := filename.toList
  let suffix := (cs.reverse.takeWhile (fun c => c ≠ '.')).reverse
  if suffix.length = cs.length then "" else String.mk suffix

/-- `struct FileMetadata`: one manifest entry (archive display name and the
media type inferred from the original filename). -/
structure FileMetadata where
  name : String
  type : String
deriving DecidableEq, Repr

/-- The `FileMetadata` constructor. -/
def FileMetadata.make (zipName originalFilename : String) : FileMetadata :=
  ⟨zipName, getMimeType (getFileExtension originalFilename)⟩

/-- `ThreadSafeStats`: the run's aggregate counters. -/
structure Stats where
  totalFiles : Nat
  processedFiles : Nat
  skippedFiles : Nat
  failedFiles : Nat
  totalInputSize : Nat
  totalOutputSize : Nat
deriving DecidableEq, Repr

/-- The freshly constructed statistics object (all counters zero). -/
def initStats : Stats := ⟨0, 0, 0, 0, 0, 0⟩

/-- `ThreadSafeStats::hasFailures`. -/
def Stats.hasFailures (s : Stats) : Bool := decide (s.failedFiles > 0)

/-- The "Files skipped" line of `ThreadSafeStats::displayResults`. -/
def skippedSummaryLine (s : Stats) : String :=
  "Files skipped: " ++ toString s.skippedFiles

/-- `struct FileTask`: one unit of work. -/
structure FileTask where
  inputFile : String
  outputFile : String
  fileSize : Nat
deriving DecidableEq, Repr

/-- `Config::MAX_THREADS`. -/
def MAX_THREADS : Nat := 8

/-- `Config::MIN_FILE_SIZE_FOR_THREADING` (1 MiB). -/
def MIN_FILE_SIZE_FOR_THREADING : Nat := 1024 * 1024

/-- `Config::getOptimalThreadCount`, parametrised by the detected hardware
concurrency (`std::thread::hardware_concurrency`, 0 when undetectable). -/
def getOptimalThreadCount (hwThreads : Nat) : Nat :=
  min (if hwThreads > 0 then hwThreads else 4) MAX_THREADS

/-- `getZipFileName`: destination name `<original-filename>.zip`. -/
def getZipFileName (fileName : String) : String := fileName ++ ".zip"

/-- One entry of the input directory as seen by the scan.  A `none` field
means the corresponding filesystem call (`fs::last_write_time`,
`fs::file_size`) throws `fs::filesystem_error` for this entry. -/
structure DirEntry where
  name : String
  isRegular : Bool
  mtime : Option Nat
  size : Option Nat
deriving DecidableEq, Repr

/-- The output directory's regular `.zip` files: filename paired with its
last-write time (`none` when `fs::last_write_time` on it throws). -/
structure OutputDir where
  zips : List (String × Option Nat)
deriving DecidableEq, Repr

/-- `isInputNewer`.  `inputMtime = none` models `fs::last_write_time(inputFile)`
throwing (caught: returns `true`).  `zipOnDisk` is the output-directory entry
for the zip: `none` = `fs::exists(zipFile)` is false (returns `true`),
`some none` = the zip exists but `fs::last_write_time(zipFile)` throws
(caught: returns `true`), `some (some tz)` = compare strictly. -/
def isInputNewer (inputMtime : Option Nat) (zipOnDisk : Option (Option Nat)) : Bool :=
  match inputMtime with
  | none => true
  | some ti =>
    match zipOnDisk with
    | none => true
    | some none => true
    | some (some tz) => decide (ti > tz)

/-- The selection condition of the scan loop in `getFilesToProcess`:
`!zipExists || isInputNewer(inputFile, zipFile)` for a regular file. -/
def selects (out : OutputDir) (e : DirEntry) : Bool :=
  e.isRegular &&
    (!(out.zips.lookup (getZipFileName e.name)).isSome ||
      isInputNewer e.mtime (out.zips.lookup (getZipFileName e.name)))

/-- The task built for a selected entry (`fs::file_size` succeeded). -/
def taskOf (e : DirEntry) : FileTask :=
  ⟨e.name, getZipFileName e.name, e.size.getD 0⟩

/-- The scan loop of `getFilesToProcess` over the input-directory entries.
For each regular file, the destination name is computed, existence is checked
against the prescanned set of output zips, and the entry is selected when no
output exists or the input is newer; `fs::file_size` is then evaluated and the
task appended (with `incrementTotalFiles`).  A `size = none` on a selected
entry models `fs::file_size` throwing: the exception is caught at the
`getFilesToProcess` boundary, so the accumulated partial list is returned and
the error flag records that a filesystem error was logged. -/
def scanEntries (out : OutputDir) :
    List DirEntry → List FileTask → Stats → List FileTask × Stats × Bool
  | [], acc, s => (acc, s, false)
  | e :: rest, acc, s =>
    if selects out e then
      match e.size with
      | none => (acc, s, true)
      | some sz =>
        scanEntries out rest (acc ++ [⟨e.name, getZipFileName e.name, sz⟩])
          { s with totalFiles := s.totalFiles + 1 }
    else
      scanEntries out rest acc s

/-- `getFilesToProcess`: returns the planned tasks, the updated statistics
(`totalFiles` incremented once per selected task) and whether a filesystem
error was caught (and logged) during the scan. -/
def getFilesToProcess (out : OutputDir) (entries : List DirEntry) (s : Stats) :
    List FileTask × Stats × Bool :=
  scanEntries out entries [] s

/-- The outcome of each libzip / filesystem step in one task's execution.
`zipOpenOk`: the `ZipArchive` constructor's `zip_open` succeeds (failure
throws).  `statOk`: `fs::file_size(filePath)` inside `addFileToZipOptimized`
succeeds (failure throws).  `sourceOk` / `addOk` / `encryptOk` / `compressOk`:
`zip_source_file` / `zip_file_add` / `zip_file_set_encryption` /
`zip_set_file_compression` succeed.  `outputSizeAfter`: the result of
`fs::file_size(task.outputFile)` back in `processFileTask` after a successful
creation (`none` = it throws `fs::filesystem_error`). -/
structure TaskEnv where
  zipOpenOk : Bool
  statOk : Bool
  sourceOk : Bool
  addOk : Bool
  encryptOk : Bool
  compressOk : Bool
  outputSizeAfter : Option Nat
deriving DecidableEq, Repr

/-- What happens to the destination path over one task.
`removed`: `fs::remove(outputZipPath, ec)` was executed (catch branch of
`createPasswordProtectedZip`).  `written`: at least one entry was added, so
the `ZipArchive` destructor's `zip_close` commits the container to the
destination — even when a later step of the task failed.  `untouched`: no
entry was ever added, so `zip_close` on the empty freshly created archive
leaves no file, and no explicit removal ran either. -/
inductive DestEffect where
  | removed
  | written
  | untouched
deriving DecidableEq, Repr

/-- `addFileToZipSimple` (also the body of `addFileToZipBuffered`, which
falls back to it): returns whether the add succeeded together with the
console messages it emits.  A `zip_set_file_compression` failure only logs a
warning and the function still returns `true`. -/
def addFileToZipSimple (env : TaskEnv) (fileName : String) : Bool × List String :=
  if !env.sourceOk then (false, ["Failed to create zip source for: " ++ fileName])
  else if !env.addOk then (false, ["Failed to add file to zip: " ++ fileName])
  else if !env.encryptOk then (false, ["Failed to set encryption for: " ++ fileName])
  else if !env.compressOk then (true, ["Warning: Failed to set compression for: " ++ fileName])
  else (true, [])

/-- `createPasswordProtectedZip`: opens the archive and delegates to
`addFileToZipOptimized` (whose both branches end in `addFileToZipSimple`).
Only a thrown exception — `zip_open` failing in the `ZipArchive` constructor,
or `fs::file_size` throwing inside `addFileToZipOptimized` — reaches the
catch clause that removes the destination file; a plain `false` return from
`addFileToZipSimple` does not, and if an entry was already added the
destructor's `zip_close` commits the container. -/
def createPasswordProtectedZip (env : TaskEnv) (fileName : String) :
    Bool × DestEffect × List String :=
  if !env.zipOpenOk then (false, DestEffect.removed, ["Zip creation error"])
  else if !env.statOk then (false, DestEffect.removed, ["Zip creation error"])
  else
    let r := addFileToZipSimple env fileName
    let eff := if env.sourceOk && env.addOk then DestEffect.written else DestEffect.untouched
    (r.1, eff, r.2)

/-- The mutable per-run state shared by the workers: the statistics object
and the `processedFiles` manifest-entry list. -/
structure RunState where
  stats : Stats
  manifest : List FileMetadata
deriving DecidableEq, Repr

/-- `processFileTask`: adds the input size, attempts the archive, and on
success reads the output size (`fs::filesystem_error` here is caught and
counts the task as failed), records output size, increments the processed
count and appends the manifest entry; on failure increments the failed
count.  Also reports the task's effect on the destination path. -/
def processFileTask (env : TaskEnv) (task : FileTask) (st : RunState) :
    RunState × DestEffect :=
  let st := { st with stats :=
    { st.stats with totalInputSize := st.stats.totalInputSize + task.fileSize } }
  let r := createPasswordProtectedZip env task.inputFile
  if r.1 then
    match env.outputSizeAfter with
    | some outSize =>
      ({ st with
          stats := { st.stats with
            totalOutputSize := st.stats.totalOutputSize + outSize,
            processedFiles := st.stats.processedFiles + 1 },
          manifest := st.manifest ++ [FileMetadata.make task.outputFile task.inputFile] },
        r.2.1)
    | none =>
      ({ st with stats := { st.stats with failedFiles := st.stats.failedFiles + 1 } }, r.2.1)
  else
    ({ st with stats := { st.stats with failedFiles := st.stats.failedFiles + 1 } }, r.2.1)

/-- `processFilesSequential`: runs `processFileTask` on each task in order.
The parallel path (`processFilesParallel`) performs exactly the same
per-task updates, each task claimed exactly once via the atomic cursor; only
the completion order differs, which no aggregate counter depends on. -/
def processFilesSequential (tasks : List (FileTask × TaskEnv)) (st : RunState) : RunState :=
  tasks.foldl (fun s te => (processFileTask te.2 te.1 s).1) st

/-- `shouldUseParallelProcessing`: fewer than 2 tasks — sequential; else
parallel when at least one task's size is ≥ `MIN_FILE_SIZE_FOR_THREADING`
(the `count_if` uses `>=`) or the task count reaches the worker count. -/
def shouldUseParallelProcessing (hwThreads : Nat) (tasks : List FileTask) : Bool :=
  if tasks.length < 2 then false
  else
    let largeFiles := tasks.countP (fun t => decide (t.fileSize ≥ MIN_FILE_SIZE_FOR_THREADING))
    decide (largeFiles > 0) || decide (tasks.length ≥ getOptimalThreadCount hwThreads)

/-- The comparator-based `std::sort` by file size descending, modelled as an
insertion sort (the claims only depend on it being a permutation). -/
def insertBySize (t : FileTask) : List FileTask → List FileTask
  | [] => [t]
  | u :: us => if t.fileSize ≥ u.fileSize then t :: u :: us else u :: insertBySize t us

/-- Sort the planned tasks largest-first, as `processAllFiles` does. -/
def sortBySizeDesc (ts : List FileTask) : List FileTask :=
  ts.foldr insertBySize []

/-- `escapeJsonString`: escape quote, backslash and control characters. -/
def escapeJsonChar (c : Char) : String :=
  if c = '"' then "\\\""
  else if c = '\\' then "\\\\"
  else if c = '\x08' then "\\b"
  else if c = '\x0c' then "\\f"
  else if c = '\n' then "\\n"
  else if c = '\r' then "\\r"
  else if c = '\t' then "\\t"
  else if c.toNat < 0x20 then
    let hex := fun (n : Nat) => String.mk [(Nat.digitChar (n / 16)), (Nat.digitChar (n % 16))]
    "\\u00" ++ hex c.toNat
  else String.mk [c]

/-- `escapeJsonString` over a whole string. -/
def escapeJsonString (s : String) : String :=
  String.join (s.toList.map escapeJsonChar)

/-- One serialized manifest record, with a trailing comma unless last. -/
def manifestEntryJson (f : FileMetadata) (isLast : Bool) : String :=
  "    \x7b\n        \"name\": \"" ++ escapeJsonString f.name ++
    "\",\n        \"type\": \"" ++ escapeJsonString f.type ++ "\"\n    \x7d" ++
    (if isLast then "" else ",") ++ "\n"

/-- The record sequence of the manifest body. -/
def manifestBody : List FileMetadata → String
  | [] => ""
  | [f] => manifestEntryJson f true
  | f :: rest => manifestEntryJson f false ++ manifestBody rest

/-- `generateFileListJson`: with an empty `processedFiles` list it only logs
"No files processed, skipping JSON generation." and returns without touching
the filesystem (`none`); otherwise it produces the `files-list.json`
content. -/
def generateFileListJson (processedFiles : List FileMetadata) : Option String :=
  if processedFiles.isEmpty then none
  else some ("[\n" ++ manifestBody processedFiles ++ "]\n")

/-- The effect of the manifest writer on the `files-list.json` path:
`prior` is its previous content (if any). -/
def writeManifest (prior : Option String) (processedFiles : List FileMetadata) :
    Option String :=
  match generateFileListJson processedFiles with
  | none => prior
  | some s => some s

/-- `processAllFiles`: validate directories, plan, report trivially when
nothing is to do, sort largest-first, pick the scheduling strategy and run
every task (both strategies apply `processFileTask` to every task exactly
once; completion order is irrelevant to the state reached), then return
`!stats.hasFailures()`.  `validateOk` models the outcome of
`validateDirectories`, `envOf` gives each task's libzip/filesystem
outcomes. -/
def processAllFiles (validateOk : Bool) (hwThreads : Nat) (envOf : FileTask → TaskEnv)
    (out : OutputDir) (entries : List DirEntry) : Bool × RunState :=
  if !validateOk then (false, ⟨initStats, []⟩)
  else
    let plan := getFilesToProcess out entries initStats
    if plan.1.isEmpty then (true, ⟨plan.2.1, []⟩)
    else
      let sorted := sortBySizeDesc plan.1
      let pairs := sorted.map (fun t => (t, envOf t))
      let final :=
        if shouldUseParallelProcessing hwThreads sorted then
          processFilesSequential pairs ⟨plan.2.1, []⟩
        else
          processFilesSequential pairs ⟨plan.2.1, []⟩
      (!final.stats.hasFailures, final)

/-- `main`'s exit code: a missing password (`Config::getPassword` throws) is
caught and exits 1; otherwise the run's success flag decides 0 versus 1. -/
def mainExitCode (passwordOk : Bool) (validateOk : Bool) (hwThreads : Nat)
    (envOf : FileTask → TaskEnv) (out : OutputDir) (entries : List DirEntry) : Nat :=
  if !passwordOk then 1
  else if (processAllFiles validateOk hwThreads envOf out entries).1 then 0 else 1

/-- The scheduling predicate exactly as the specification claim words it:
parallel iff at least 2 tasks and (some task's size *strictly exceeds* the
large-file threshold, or the task count meets or exceeds the chosen worker
count).  To be compared against `shouldUseParallelProcessing`. -/
def specParallelSelection (hwThreads : Nat) (tasks : List FileTask) : Bool :=
  decide (2 ≤ tasks.length) &&
    (tasks.any (fun t => decide (MIN_FILE_SIZE_FOR_THREADING < t.fileSize)) ||
      decide (getOptimalThreadCount hwThreads ≤ tasks.length))

/-! ### Foundational lemmas -/

@[simp] lemma initStats_totalFiles : initStats.totalFiles = 0 := rfl

@[simp] lemma initStats_processedFiles : initStats.processedFiles = 0 := rfl

@[simp] lemma initStats_skippedFiles : initStats.skippedFiles = 0 := rfl

@[simp] lemma initStats_failedFiles : initStats.failedFiles = 0 := rfl

/-- Each executed task moves exactly one of the two terminal counters by one
and leaves `totalFiles` and `skippedFiles` unchanged. -/
lemma processFileTask_counts (env : TaskEnv) (task : FileTask) (st : RunState) :
    ((processFileTask env task st).1.stats.processedFiles +
        (processFileTask env task st).1.stats.failedFiles
      = st.stats.processedFiles + st.stats.failedFiles + 1) ∧
    (processFileTask env task st).1.stats.totalFiles = st.stats.totalFiles ∧
    (processFileTask env task st).1.stats.skippedFiles = st.stats.skippedFiles := by
  unfold processFileTask
  cases h : (createPasswordProtectedZip env task.inputFile).1 <;>
    cases h2 : env.outputSizeAfter <;> simp [h, h2] <;> omega

/-- Sequential execution adds exactly one terminal outcome per task. -/
lemma processFilesSequential_counts :
    ∀ (l : List (FileTask × TaskEnv)) (st : RunState),
      ((processFilesSequential l st).stats.processedFiles +
          (processFilesSequential l st).stats.failedFiles
        = st.stats.processedFiles + st.stats.failedFiles + l.length) ∧
      (processFilesSequential l st).stats.totalFiles = st.stats.totalFiles ∧
      (processFilesSequential l st).stats.skippedFiles = st.stats.skippedFiles
  | [], st => by simp [processFilesSequential]
  | te :: rest, st => by
    have h1 := processFileTask_counts te.2 te.1 st
    have h2 := processFilesSequential_counts rest (processFileTask te.2 te.1 st).1
    simp only [processFilesSequential, List.foldl_cons, List.length_cons] at h2 ⊢
    refine ⟨?_, ?_, ?_⟩ <;> omega

/-- `insertBySize` inserts one element. -/
lemma length_insertBySize (t : FileTask) : ∀ l, (insertBySize t l).length = l.length + 1
  | [] => rfl
  | u :: us => by
    unfold insertBySize
    by_cases h : t.fileSize ≥ u.fileSize <;>
      simp [h, length_insertBySize t us]

/-- The largest-first sort is a permutation; in particular it keeps the
number of tasks. -/
lemma length_sortBySizeDesc : ∀ l : List FileTask, (sortBySizeDesc l).length = l.length
  | [] => rfl
  | t :: ts => by
    have ih := length_sortBySizeDesc ts
    unfold sortBySizeDesc at ih ⊢
    simp [length_insertBySize, ih]

/-- Unfolding: a non-selected entry is skipped by the scan. -/
lemma scanEntries_cons_neg (out : OutputDir) (e : DirEntry) (rest : List DirEntry)
    (acc : List FileTask) (s : Stats) (hsel : selects out e = false) :
    scanEntries out (e :: rest) acc s = scanEntries out rest acc s := by
  conv_lhs => unfold scanEntries
  simp only [hsel, Bool.false_eq_true, if_false]

/-- Unfolding: a selected entry whose size is readable yields a task. -/
lemma scanEntries_cons_pos (out : OutputDir) (e : DirEntry) (rest : List DirEntry)
    (acc : List FileTask) (s : Stats) (sz : Nat)
    (hsel : selects out e = true) (hsz : e.size = some sz) :
    scanEntries out (e :: rest) acc s =
      scanEntries out rest (acc ++ [⟨e.name, getZipFileName e.name, sz⟩])
        { s with totalFiles := s.totalFiles + 1 } := by
  conv_lhs => unfold scanEntries
  simp only [hsel, if_true, hsz]

/-- Unfolding: a selected entry whose `fs::file_size` throws aborts the scan
with the partial accumulator and the error flag. -/
lemma scanEntries_cons_err (out : OutputDir) (e : DirEntry) (rest : List DirEntry)
    (acc : List FileTask) (s : Stats)
    (hsel : selects out e = true) (hsz : e.size = none) :
    scanEntries out (e :: rest) acc s = (acc, s, true) := by
  conv_lhs => unfold scanEntries
  simp only [hsel, if_true, hsz]

/-- The scan appends the selected tasks to the accumulator, bumps
`totalFiles` once per appended task and touches no other counter. -/
lemma scanEntries_stats (out : OutputDir) :
    ∀ (entries : List DirEntry) (acc : List FileTask) (s : Stats),
      ∃ extra : List FileTask,
        (scanEntries out entries acc s).1 = acc ++ extra ∧
        (scanEntries out entries acc s).2.1 =
          { s with totalFiles := s.totalFiles + extra.length }
  | [], acc, s => ⟨[], by simp [scanEntries]⟩
  | e :: rest, acc, s => by
    cases hsel : selects out e with
    | false =>
      rw [scanEntries_cons_neg out e rest acc s hsel]
      exact scanEntries_stats out rest acc s
    | true =>
      cases hsz : e.size with
      | none => exact ⟨[], by rw [scanEntries_cons_err out e rest acc s hsel hsz]; simp⟩
      | some sz =>
        rw [scanEntries_cons_pos out e rest acc s sz hsel hsz]
        obtain ⟨extra, h1, h2⟩ :=
          scanEntries_stats out rest (acc ++ [⟨e.name, getZipFileName e.name, sz⟩])
            { s with totalFiles := s.totalFiles + 1 }
        refine ⟨⟨e.name, getZipFileName e.name, sz⟩ :: extra, ?_, ?_⟩
        · simpa using h1
        · rw [h2]; simp; omega

/-- When no selected entry's `fs::file_size` throws, the scan completes
without error and returns exactly the selected entries' tasks in directory
order. -/
lemma scanEntries_no_err (out : OutputDir) :
    ∀ (entries : List DirEntry) (acc : List FileTask) (s : Stats),
      (∀ d ∈ entries, selects out d = true → d.size ≠ none) →
      (scanEntries out entries acc s).1 = acc ++ (entries.filter (selects out)).map taskOf ∧
      (scanEntries out entries acc s).2.2 = false
  | [], acc, s, _ => by simp [scanEntries]
  | e :: rest, acc, s, h => by
    cases hsel : selects out e with
    | false =>
      rw [scanEntries_cons_neg out e rest acc s hsel]
      obtain ⟨h1, h2⟩ := scanEntries_no_err out rest acc s (fun d hd => h d (by simp [hd]))
      refine ⟨?_, h2⟩
      rw [h1]
      simp [hsel]
    | true =>
      cases hsz : e.size with
      | none => exact absurd hsz (h e (by simp) hsel)
      | some sz =>
        rw [scanEntries_cons_pos out e rest acc s sz hsel hsz]
        obtain ⟨h1, h2⟩ :=
          scanEntries_no_err out rest (acc ++ [⟨e.name, getZipFileName e.name, sz⟩])
            { s with totalFiles := s.totalFiles + 1 }
            (fun d hd => h d (by simp [hd]))
        refine ⟨?_, h2⟩
        rw [h1]
        simp [hsel, taskOf, hsz]

/-! ### Claim theorems -/

/-- C5 (counterexample): with 8 hardware threads and two tasks of exactly
1 MiB (= `MIN_FILE_SIZE_FOR_THREADING`), the code selects parallel execution
(its `count_if` compares with `>=`), while the claim's predicate — "size
exceeds the threshold" — selects sequential: the claim as stated is false at
the threshold boundary. -/
theorem c5_counterexample :
    shouldUseParallelProcessing 8
        [⟨"a.bin", "a.bin.zip", 1048576⟩, ⟨"b.bin", "b.bin.zip", 1048576⟩] = true ∧
      specParallelSelection 8
        [⟨"a.bin", "a.bin.zip", 1048576⟩, ⟨"b.bin", "b.bin.zip", 1048576⟩] = false := by
  decide

/-- C5 (amended): parallel execution is selected iff there are ≥ 2 tasks and
(at least one task's size is **at least** the large-file threshold, or the
task count meets or exceeds the chosen worker count). -/
theorem c5_amended (hwThreads : Nat) (tasks : List FileTask) :
    shouldUseParallelProcessing hwThreads tasks = true ↔
      (2 ≤ tasks.length ∧
        ((∃ t ∈ tasks, MIN_FILE_SIZE_FOR_THREADING ≤ t.fileSize) ∨
          getOptimalThreadCount hwThreads ≤ tasks.length)) := by
  unfold shouldUseParallelProcessing
  by_cases h : tasks.length < 2
  · simp only [h, if_true]
    constructor
    · intro hc; cases hc
    · rintro ⟨h2, _⟩; omega
  · simp only [h, if_false]
    simp only [Bool.or_eq_true, decide_eq_true_eq, gt_iff_lt, List.countP_pos_iff]
    constructor
    · rintro (⟨t, ht, hp⟩ | hge)
      · exact ⟨by omega, Or.inl ⟨t, ht, by simpa using hp⟩⟩
      · exact ⟨by omega, Or.inr hge⟩
    · rintro ⟨_, ⟨t, ht, hp⟩ | hge⟩
      · exact Or.inl ⟨t, ht, by simpa using hp⟩
      · exact Or.inr hge

/-- Witness for C5 (amended): a 2 MiB task makes a two-task batch parallel. -/
theorem c5_amended_witness :
    shouldUseParallelProcessing 8
      [⟨"c.bin", "c.bin.zip", 2097152⟩, ⟨"d.txt", "d.txt.zip", 3⟩] = true :=
  (c5_amended 8 [⟨"c.bin", "c.bin.zip", 2097152⟩, ⟨"d.txt", "d.txt.zip", 3⟩]).mpr
    ⟨by decide, Or.inl ⟨⟨"c.bin", "c.bin.zip", 2097152⟩, by decide, by decide⟩⟩

/-- C7: an empty accumulated manifest-entry sequence produces no write — the
prior `files-list.json` is left unchanged — and a write happens only for a
non-empty sequence. -/
theorem c7_manifest_frame (prior : Option String) (files : List FileMetadata) :
    (files = [] → generateFileListJson files = none ∧ writeManifest prior files = prior) ∧
    (∀ content, generateFileListJson files = some content → files ≠ []) := by
  constructor
  · rintro rfl
    exact ⟨rfl, rfl⟩
  · rintro content h rfl
    simp [generateFileListJson] at h

/-- Witness for C7 at a concrete prior manifest and the empty sequence. -/
theorem c7_manifest_frame_witness :
    generateFileListJson ([] : List FileMetadata) = none ∧
      writeManifest (some "old-manifest") [] = some "old-manifest" :=
  (c7_manifest_frame (some "old-manifest") []).1 rfl

/-- C8: when everything up to and including encryption succeeds and only
`zip_set_file_compression` fails, the add still returns `true` with just a
warning logged, the task counts as processed (not failed) and the archive is
kept at the destination. -/
theorem c8_compression_advisory (env : TaskEnv) (task : FileTask) (st : RunState)
    (outSz : Nat) (h1 : env.zipOpenOk = true) (h2 : env.statOk = true)
    (h3 : env.sourceOk = true) (h4 : env.addOk = true) (h5 : env.encryptOk = true)
    (h6 : env.compressOk = false) (h7 : env.outputSizeAfter = some outSz) :
    (addFileToZipSimple env task.inputFile).1 = true ∧
    (addFileToZipSimple env task.inputFile).2 =
      ["Warning: Failed to set compression for: " ++ task.inputFile] ∧
    (processFileTask env task st).1.stats.processedFiles = st.stats.processedFiles + 1 ∧
    (processFileTask env task st).1.stats.failedFiles = st.stats.failedFiles ∧
    (processFileTask env task st).2 = DestEffect.written := by
  obtain ⟨z, q, so, ad, en, co, os⟩ := env
  simp only at h1 h2 h3 h4 h5 h6 h7
  subst h1 h2 h3 h4 h5 h6 h7
  simp [processFileTask, createPasswordProtectedZip, addFileToZipSimple]

/-- Witness for C8 at a concrete failing-compression environment. -/
theorem c8_compression_advisory_witness :
    (processFileTask ⟨true, true, true, true, true, false, some 3⟩
        ⟨"a.txt", "a.txt.zip", 5⟩ ⟨initStats, []⟩).1.stats.processedFiles
      = (⟨initStats, ([] : List FileMetadata)⟩ : RunState).stats.processedFiles + 1 ∧
    (processFileTask ⟨true, true, true, true, true, false, some 3⟩
        ⟨"a.txt", "a.txt.zip", 5⟩ ⟨initStats, []⟩).2 = DestEffect.written := by
  have h := c8_compression_advisory ⟨true, true, true, true, true, false, some 3⟩
    ⟨"a.txt", "a.txt.zip", 5⟩ ⟨initStats, []⟩ 3 rfl rfl rfl rfl rfl rfl rfl
  exact ⟨h.2.2.1, h.2.2.2.2⟩

/-- C1 (counterexample): a task whose `zip_file_set_encryption` call fails is
counted as failed, but the destination file is *not* deleted — the entry was
already added, so the `ZipArchive` destructor's `zip_close` commits a
(non-encrypted) archive at the destination path, contradicting "deletes any
partially written destination file" for every failure. -/
theorem c1_counterexample :
    (processFileTask ⟨true, true, true, true, false, true, some 0⟩
        ⟨"a.txt", "a.txt.zip", 5⟩ ⟨initStats, []⟩).1.stats.failedFiles = 1 ∧
    (processFileTask ⟨true, true, true, true, false, true, some 0⟩
        ⟨"a.txt", "a.txt.zip", 5⟩ ⟨initStats, []⟩).2 = DestEffect.written := by
  decide

/-- C1 (amended): every failing task increments the failed count (and not
the processed count) and the batch simply continues with the next task; the
destination file is removed exactly when archive creation itself threw
(`zip_open` failure, or a filesystem error inside creation) — an
encryption-assignment failure or a post-creation filesystem error leaves the
destination file in place. -/
theorem c1_amended (env : TaskEnv) (task : FileTask) (st : RunState)
    (rest : List (FileTask × TaskEnv)) :
    ((createPasswordProtectedZip env task.inputFile).1 = false ∨ env.outputSizeAfter = none →
      (processFileTask env task st).1.stats.failedFiles = st.stats.failedFiles + 1 ∧
      (processFileTask env task st).1.stats.processedFiles = st.stats.processedFiles ∧
      processFilesSequential ((task, env) :: rest) st
        = processFilesSequential rest (processFileTask env task st).1) ∧
    ((processFileTask env task st).2 = DestEffect.removed ↔
      (env.zipOpenOk = false ∨ env.statOk = false)) := by
  constructor
  · intro h
    refine ⟨?_, ?_, rfl⟩ <;>
    · unfold processFileTask
      cases hc : (createPasswordProtectedZip env task.inputFile).1 with
      | false => simp [hc]
      | true =>
        have hnone : env.outputSizeAfter = none := by
          rcases h with h | h
          · rw [hc] at h; cases h
          · exact h
        simp [hc, hnone]
  · obtain ⟨z, q, so, ad, en, co, os⟩ := env
    cases z <;> cases q <;> cases so <;> cases ad <;> cases en <;> cases co <;>
      cases os <;>
        simp [processFileTask, createPasswordProtectedZip, addFileToZipSimple]

/-- Witness for C1 (amended) at a concrete `zip_open` failure: the failed
count is incremented and here the destination *is* removed. -/
theorem c1_amended_witness :
    (processFileTask ⟨false, true, true, true, true, true, some 0⟩
        ⟨"b.txt", "b.txt.zip", 7⟩ ⟨initStats, []⟩).1.stats.failedFiles
      = (⟨initStats, ([] : List FileMetadata)⟩ : RunState).stats.failedFiles + 1 ∧
    (processFileTask ⟨false, true, true, true, true, true, some 0⟩
        ⟨"b.txt", "b.txt.zip", 7⟩ ⟨initStats, []⟩).2 = DestEffect.removed := by
  have h := c1_amended ⟨false, true, true, true, true, true, some 0⟩
    ⟨"b.txt", "b.txt.zip", 7⟩ ⟨initStats, []⟩ []
  exact ⟨(h.1 (Or.inl (by decide))).1, h.2.mpr (Or.inl rfl)⟩

/-- A scan that reports a filesystem error stopped at the first selected
entry whose size stat throws, returning exactly the tasks accumulated from
the prefix before it. -/
lemma scanEntries_err_split (out : OutputDir) :
    ∀ (entries : List DirEntry) (acc : List FileTask) (s : Stats),
      (scanEntries out entries acc s).2.2 = true →
      ∃ pre e post, entries = pre ++ e :: post ∧ selects out e = true ∧ e.size = none ∧
        (∀ d ∈ pre, selects out d = true → d.size ≠ none) ∧
        (scanEntries out entries acc s).1 = (scanEntries out pre acc s).1
  | [], acc, s, h => by simp [scanEntries] at h
  | e :: rest, acc, s, h => by
    cases hsel : selects out e with
    | false =>
      rw [scanEntries_cons_neg out e rest acc s hsel] at h ⊢
      obtain ⟨pre, e', post, h1, h2, h3, h4, h5⟩ := scanEntries_err_split out rest acc s h
      refine ⟨e :: pre, e', post, by rw [h1, List.cons_append], h2, h3, ?_, ?_⟩
      · intro d hd
        rcases List.mem_cons.mp hd with rfl | hd'
        · intro hsd; rw [hsd] at hsel; cases hsel
        · exact h4 d hd'
      · rw [h5, scanEntries_cons_neg out e pre acc s hsel]
    | true =>
      cases hsz : e.size with
      | none =>
        refine ⟨[], e, rest, rfl, hsel, hsz, by simp, ?_⟩
        rw [scanEntries_cons_err out e rest acc s hsel hsz]
        simp [scanEntries]
      | some sz =>
        rw [scanEntries_cons_pos out e rest acc s sz hsel hsz] at h ⊢
        obtain ⟨pre, e', post, h1, h2, h3, h4, h5⟩ := scanEntries_err_split out rest _ _ h
        refine ⟨e :: pre, e', post, by rw [h1, List.cons_append], h2, h3, ?_, ?_⟩
        · intro d hd
          rcases List.mem_cons.mp hd with rfl | hd'
          · intro _; rw [hsz]; simp
          · exact h4 d hd'
        · rw [h5, scanEntries_cons_pos out e pre acc s sz hsel hsz]

/-- A scan that finishes without the error flag visited every entry, so no
selected entry had an unreadable size. -/
lemma scanEntries_err_false (out : OutputDir) :
    ∀ (entries : List DirEntry) (acc : List FileTask) (s : Stats),
      (scanEntries out entries acc s).2.2 = false →
      ∀ d ∈ entries, selects out d = true → d.size ≠ none
  | [], _, _, _, d, hd => by cases hd
  | e :: rest, acc, s, h, d, hd => by
    cases hsel : selects out e with
    | false =>
      rw [scanEntries_cons_neg out e rest acc s hsel] at h
      rcases List.mem_cons.mp hd with rfl | hd'
      · intro hsd; rw [hsd] at hsel; cases hsel
      · exact scanEntries_err_false out rest acc s h d hd'
    | true =>
      cases hsz : e.size with
      | none =>
        rw [scanEntries_cons_err out e rest acc s hsel hsz] at h
        cases h
      | some sz =>
        rw [scanEntries_cons_pos out e rest acc s sz hsel hsz] at h
        rcases List.mem_cons.mp hd with rfl | hd'
        · intro _; rw [hsz]; simp
        · exact scanEntries_err_false out rest _ _ h d hd'

/-- C3 (counterexample): with an empty output directory and two fresh input
files of which the second's `fs::file_size` throws, the scan logs a
filesystem error yet returns a *non-empty* task sequence (the first file's
task), contradicting "fails only by returning an empty task sequence". -/
theorem c3_counterexample :
    (getFilesToProcess ⟨[]⟩
        [⟨"a", true, some 5, some 10⟩, ⟨"b", true, some 5, none⟩] initStats).2.2 = true ∧
    (getFilesToProcess ⟨[]⟩
        [⟨"a", true, some 5, some 10⟩, ⟨"b", true, some 5, none⟩] initStats).1
      = [⟨"a", "a.zip", 10⟩] := by
  decide

/-- C3 (amended): planning never throws past its boundary; on a filesystem
error during the input-directory scan it logs the error and returns the —
possibly non-empty — prefix of tasks selected before the erroring entry,
and an error-free scan returns exactly the selected entries' tasks. -/
theorem c3_amended (out : OutputDir) (entries : List DirEntry) :
    ((getFilesToProcess out entries initStats).2.2 = true →
      ∃ pre e post, entries = pre ++ e :: post ∧ selects out e = true ∧ e.size = none ∧
        (getFilesToProcess out entries initStats).1
          = (getFilesToProcess out pre initStats).1 ∧
        (getFilesToProcess out pre initStats).2.2 = false) ∧
    ((getFilesToProcess out entries initStats).2.2 = false →
      (getFilesToProcess out entries initStats).1
        = (entries.filter (selects out)).map taskOf) := by
  constructor
  · intro h
    obtain ⟨pre, e, post, h1, h2, h3, h4, h5⟩ :=
      scanEntries_err_split out entries [] initStats h
    obtain ⟨_, h7⟩ := scanEntries_no_err out pre [] initStats h4
    exact ⟨pre, e, post, h1, h2, h3, h5, h7⟩
  · intro h
    obtain ⟨h1, _⟩ := scanEntries_no_err out entries [] initStats
      (scanEntries_err_false out entries [] initStats h)
    unfold getFilesToProcess
    rw [h1]
    simp

/-- Witness for C3 (amended) at a concrete erroring scan. -/
theorem c3_amended_witness :
    ∃ pre e post,
      ([⟨"c", true, some 5, some 10⟩, ⟨"d", true, some 5, none⟩] : List DirEntry)
        = pre ++ e :: post ∧
      selects ⟨[]⟩ e = true ∧ e.size = none ∧
      (getFilesToProcess ⟨[]⟩
          [⟨"c", true, some 5, some 10⟩, ⟨"d", true, some 5, none⟩] initStats).1
        = (getFilesToProcess ⟨[]⟩ pre initStats).1 ∧
      (getFilesToProcess ⟨[]⟩ pre initStats).2.2 = false :=
  (c3_amended ⟨[]⟩
    [⟨"c", true, some 5, some 10⟩, ⟨"d", true, some 5, none⟩]).1 (by decide)

/-- C4: with an error-free scan over distinctly named entries, a regular
input file gets a task iff no output archive exists for it or the input's
modification time is strictly newer — an unobtainable output-side timestamp
(output absent, or its stat throwing) counting as "include". -/
theorem c4_selection (out : OutputDir) (entries : List DirEntry) (e : DirEntry)
    (hnd : (entries.map DirEntry.name).Nodup)
    (hsz : ∀ d ∈ entries, selects out d = true → d.size ≠ none)
    (he : e ∈ entries) (hreg : e.isRegular = true) :
    (∃ t ∈ (getFilesToProcess out entries initStats).1, t.inputFile = e.name) ↔
      (out.zips.lookup (getZipFileName e.name) = none ∨
        isInputNewer e.mtime (out.zips.lookup (getZipFileName e.name)) = true) := by
  obtain ⟨h1, _⟩ := scanEntries_no_err out entries [] initStats hsz
  unfold getFilesToProcess
  rw [h1]
  simp only [List.nil_append]
  constructor
  · rintro ⟨t, ht, hname⟩
    rw [List.mem_map] at ht
    obtain ⟨d, hd, rfl⟩ := ht
    rw [List.mem_filter] at hd
    have hde : d = e :=
      List.inj_on_of_nodup_map hnd hd.1 he (by simpa [taskOf] using hname)
    subst hde
    have hs := hd.2
    unfold selects at hs
    cases hl : out.zips.lookup (getZipFileName d.name) with
    | none => exact Or.inl rfl
    | some v =>
      right
      rw [hl] at hs
      have hs' : d.isRegular = true ∧ isInputNewer d.mtime (some v) = true := by
        simpa using hs
      exact hs'.2
  · intro hcond
    refine ⟨taskOf e, List.mem_map.mpr ⟨e, List.mem_filter.mpr ⟨he, ?_⟩, rfl⟩, rfl⟩
    unfold selects
    rw [hreg]
    rcases hcond with h | h <;> rw [h] <;> simp

/-- Witness for C4: one fresh regular file against an empty output
directory is selected. -/
theorem c4_selection_witness :
    ∃ t ∈ (getFilesToProcess ⟨[]⟩ [⟨"w", true, some 3, some 7⟩] initStats).1,
      t.inputFile = "w" :=
  (c4_selection ⟨[]⟩ [⟨"w", true, some 3, some 7⟩] ⟨"w", true, some 3, some 7⟩
      (by decide) (by decide) (by simp) rfl).mpr (Or.inl (by decide))

/-- The planner leaves every counter except `totalFiles` untouched, and sets
`totalFiles` to the number of selected tasks. -/
lemma getFilesToProcess_initStats (out : OutputDir) (entries : List DirEntry) :
    (getFilesToProcess out entries initStats).2.1 =
      { initStats with totalFiles := (getFilesToProcess out entries initStats).1.length } := by
  obtain ⟨extra, h1, h2⟩ := scanEntries_stats out entries [] initStats
  unfold getFilesToProcess at *
  rw [h1, h2]
  simp

/-- C2: for every completed run, the planner's `totalFiles` equals the number
of selected tasks; after completion `processed + failed = total`; and after
any prefix of the task list — i.e. at any time during the run —
`processed + failed ≤ total`. -/
theorem c2_counts_invariant (hwThreads : Nat) (envOf : FileTask → TaskEnv)
    (out : OutputDir) (entries : List DirEntry) :
    (getFilesToProcess out entries initStats).2.1.totalFiles
      = (getFilesToProcess out entries initStats).1.length ∧
    ((processAllFiles true hwThreads envOf out entries).2.stats.processedFiles +
        (processAllFiles true hwThreads envOf out entries).2.stats.failedFiles
      = (processAllFiles true hwThreads envOf out entries).2.stats.totalFiles) ∧
    (∀ l₁ l₂,
      (sortBySizeDesc (getFilesToProcess out entries initStats).1).map
          (fun t => (t, envOf t)) = l₁ ++ l₂ →
      (processFilesSequential l₁
          ⟨(getFilesToProcess out entries initStats).2.1, []⟩).stats.processedFiles +
        (processFilesSequential l₁
          ⟨(getFilesToProcess out entries initStats).2.1, []⟩).stats.failedFiles
      ≤ (processFilesSequential l₁
          ⟨(getFilesToProcess out entries initStats).2.1, []⟩).stats.totalFiles) := by
  have hplan := getFilesToProcess_initStats out entries
  refine ⟨by rw [hplan], ?_, ?_⟩
  · unfold processAllFiles
    simp only [Bool.not_true, Bool.false_eq_true, if_false]
    by_cases hemp : (getFilesToProcess out entries initStats).1.isEmpty
    · simp only [hemp, if_true]
      rw [hplan]
      have : (getFilesToProcess out entries initStats).1 = [] :=
        List.isEmpty_iff.mp hemp
      simp [this]
    · simp only [hemp, Bool.false_eq_true, if_false, ite_self]
      obtain ⟨hc, ht, _⟩ := processFilesSequential_counts
        ((sortBySizeDesc (getFilesToProcess out entries initStats).1).map
          (fun t => (t, envOf t)))
        ⟨(getFilesToProcess out entries initStats).2.1, []⟩
      rw [hc, ht, hplan]
      simp [length_sortBySizeDesc]
  · intro l₁ l₂ hsplit
    obtain ⟨hc, ht, _⟩ := processFilesSequential_counts l₁
      ⟨(getFilesToProcess out entries initStats).2.1, []⟩
    rw [hc, ht, hplan]
    have hlen : l₁.length ≤ (getFilesToProcess out entries initStats).1.length := by
      have := congrArg List.length hsplit
      simp only [List.length_map, length_sortBySizeDesc, List.length_append] at this
      omega
    simp
    omega

/-- Witness for C2 at a concrete one-file run (prefix `l₁ = []`). -/
theorem c2_counts_invariant_witness :
    ((processAllFiles true 8 (fun _ => ⟨true, true, true, true, true, true, some 1⟩)
        ⟨[]⟩ [⟨"w2", true, some 3, some 7⟩]).2.stats.processedFiles +
      (processAllFiles true 8 (fun _ => ⟨true, true, true, true, true, true, some 1⟩)
        ⟨[]⟩ [⟨"w2", true, some 3, some 7⟩]).2.stats.failedFiles
      = (processAllFiles true 8 (fun _ => ⟨true, true, true, true, true, true, some 1⟩)
        ⟨[]⟩ [⟨"w2", true, some 3, some 7⟩]).2.stats.totalFiles) ∧
    ((processFilesSequential []
        ⟨(getFilesToProcess ⟨[]⟩ [⟨"w2", true, some 3, some 7⟩] initStats).2.1,
          []⟩).stats.processedFiles +
      (processFilesSequential []
        ⟨(getFilesToProcess ⟨[]⟩ [⟨"w2", true, some 3, some 7⟩] initStats).2.1,
          []⟩).stats.failedFiles
      ≤ (processFilesSequential []
        ⟨(getFilesToProcess ⟨[]⟩ [⟨"w2", true, some 3, some 7⟩] initStats).2.1,
          []⟩).stats.totalFiles) := by
  have h := c2_counts_invariant 8 (fun _ => ⟨true, true, true, true, true, true, some 1⟩)
    ⟨[]⟩ [⟨"w2", true, some 3, some 7⟩]
  exact ⟨h.2.1, h.2.2 []
    ((sortBySizeDesc (getFilesToProcess ⟨[]⟩ [⟨"w2", true, some 3, some 7⟩] initStats).1).map
      (fun t => (t, (fun _ => (⟨true, true, true, true, true, true, some 1⟩ : TaskEnv)) t)))
    rfl⟩

/-- C6: for a run that reaches completion (password present, directory
validation succeeded), the process exit code is 0 iff zero tasks failed, and
a plan that selects zero tasks is trivial success with exit code 0. -/
theorem c6_exit_code (hwThreads : Nat) (envOf : FileTask → TaskEnv)
    (out : OutputDir) (entries : List DirEntry) :
    (mainExitCode true true hwThreads envOf out entries = 0 ↔
      (processAllFiles true hwThreads envOf out entries).2.stats.failedFiles = 0) ∧
    ((getFilesToProcess out entries initStats).1 = [] →
      mainExitCode true true hwThreads envOf out entries = 0) := by
  have hplan := getFilesToProcess_initStats out entries
  have hsucc : (processAllFiles true hwThreads envOf out entries).1 = true ↔
      (processAllFiles true hwThreads envOf out entries).2.stats.failedFiles = 0 := by
    unfold processAllFiles
    simp only [Bool.not_true, Bool.false_eq_true, if_false]
    by_cases hemp : (getFilesToProcess out entries initStats).1.isEmpty
    · simp only [hemp, if_true]
      rw [hplan]
      simp
    · simp only [hemp, Bool.false_eq_true, if_false, ite_self]
      unfold Stats.hasFailures
      rw [Bool.not_eq_eq_eq_not, Bool.not_true, decide_eq_false_iff_not]
      omega
  constructor
  · unfold mainExitCode
    simp only [Bool.not_true, Bool.false_eq_true, if_false]
    cases hs : (processAllFiles true hwThreads envOf out entries).1 with
    | true => simpa [hs] using hsucc.mp hs
    | false =>
      simp only [Bool.false_eq_true, if_false]
      constructor
      · intro h; cases h
      · intro h
        rw [← hsucc] at h
        rw [hs] at h
        cases h
  · intro hempl
    have hsu : (processAllFiles true hwThreads envOf out entries).1 = true := by
      unfold processAllFiles
      simp only [Bool.not_true, Bool.false_eq_true, if_false]
      have : (getFilesToProcess out entries initStats).1.isEmpty = true := by
        rw [hempl]; rfl
      simp [this]
    unfold mainExitCode
    simp [hsu]

/-- Witness for C6: an empty input directory plans zero tasks and exits 0. -/
theorem c6_exit_code_witness :
    mainExitCode true true 4 (fun _ => ⟨true, true, true, true, true, true, some 1⟩)
      ⟨[]⟩ [] = 0 :=
  (c6_exit_code 4 (fun _ => ⟨true, true, true, true, true, true, some 1⟩) ⟨[]⟩ []).2 rfl

/-- C9: after a completed run on an unchanged input set — every regular input
file has a readable modification time and its output archive exists with a
timestamp at least as new — an immediate second planning pass selects zero
tasks and its `total` is 0. -/
theorem c9_idempotent (out : OutputDir) (entries : List DirEntry)
    (h : ∀ e ∈ entries, e.isRegular = true →
      ∃ ti tz, e.mtime = some ti ∧
        out.zips.lookup (getZipFileName e.name) = some (some tz) ∧ ti ≤ tz) :
    (getFilesToProcess out entries initStats).1 = [] ∧
    (getFilesToProcess out entries initStats).2.1.totalFiles = 0 := by
  have hsel : ∀ e ∈ entries, selects out e = false := by
    intro e he
    unfold selects
    cases hreg : e.isRegular with
    | false => rfl
    | true =>
      obtain ⟨ti, tz, h1, h2, h3⟩ := h e he hreg
      rw [h1, h2]
      simp [isInputNewer, decide_eq_false_iff_not]
      omega
  obtain ⟨h1, _⟩ := scanEntries_no_err out entries [] initStats
    (fun d hd hs => absurd hs (by rw [hsel d hd]; simp))
  have hempty : (getFilesToProcess out entries initStats).1 = [] := by
    unfold getFilesToProcess
    rw [h1]
    have : entries.filter (selects out) = [] :=
      List.filter_eq_nil_iff.mpr (fun a ha => by rw [hsel a ha]; simp)
    rw [this]
    simp
  refine ⟨hempty, ?_⟩
  rw [getFilesToProcess_initStats out entries, hempty]
  simp

/-- Witness for C9: one archived, unchanged input file is not re-selected. -/
theorem c9_idempotent_witness :
    (getFilesToProcess ⟨[("v.zip", some 5)]⟩ [⟨"v", true, some 3, some 7⟩] initStats).1
      = [] ∧
    (getFilesToProcess ⟨[("v.zip", some 5)]⟩ [⟨"v", true, some 3, some 7⟩]
        initStats).2.1.totalFiles = 0 :=
  c9_idempotent ⟨[("v.zip", some 5)]⟩ [⟨"v", true, some 3, some 7⟩]
    (by
      intro e he _
      rw [List.mem_singleton] at he
      subst he
      exact ⟨3, 5, rfl, by decide, by omega⟩)

/-- C10: the skipped-files counter is never incremented by any operation of
the engine — after any run (validation failure, empty plan, or full
processing) it is still 0, and the summary line always displays 0. -/
theorem c10_skipped_always_zero (validateOk : Bool) (hwThreads : Nat)
    (envOf : FileTask → TaskEnv) (out : OutputDir) (entries : List DirEntry) :
    (processAllFiles validateOk hwThreads envOf out entries).2.stats.skippedFiles = 0 ∧
    skippedSummaryLine (processAllFiles validateOk hwThreads envOf out entries).2.stats
      = "Files skipped: 0" := by
  have hz : (processAllFiles validateOk hwThreads envOf out entries).2.stats.skippedFiles
      = 0 := by
    unfold processAllFiles
    cases validateOk with
    | false => rfl
    | true =>
      simp only [Bool.not_true, Bool.false_eq_true, if_false]
      by_cases hemp : (getFilesToProcess out entries initStats).1.isEmpty
      · simp only [hemp, if_true]
        rw [getFilesToProcess_initStats out entries]
        simp
      · simp only [hemp, Bool.false_eq_true, if_false, ite_self]
        obtain ⟨_, _, hs⟩ := processFilesSequential_counts
          ((sortBySizeDesc (getFilesToProcess out entries initStats).1).map
            (fun t => (t, envOf t)))
          ⟨(getFilesToProcess out entries initStats).2.1, []⟩
        rw [hs, getFilesToProcess_initStats out entries]
        simp
  refine ⟨hz, ?_⟩
  unfold skippedSummaryLine
  rw [hz]
  rfl

end HPZipper
